import Mathlib

/-!
Verification development for the news-to-comic generator
(`src/comic_assembler.py`, `src/summarizer.py`, `src/image_generator.py`,
`src/app.py`).  Python strings are modelled as `String` (or `List Char`
where character-level reasoning is needed), Python ints as `Int`/`Nat`,
dictionaries with possibly-missing keys as structures with `Option`
fields, and fallible operations as `Option`-returning functions.
External effects (filesystem, fonts, network models) are threaded as
explicit environments.
-/

namespace NewsComic

/-! ## Text wrapping

Modelled from the spec: the wrapping routine used at
`comic_assembler.py:28` (`textwrap.TextWrapper(width=35)`) is the Python
standard library, which is not part of `src/`.  The spec's TextWrapper
contract calls for a deterministic greedy word-wrap to at most
`maxColumns` characters per line, never splitting a word if avoidable.
Following CPython's `textwrap` with its default options: whitespace is
replaced by single spaces, the text is split into words, words are packed
greedily onto lines separated by one space, and a word longer than the
width is broken, first using the space remaining on the current line
(at least one character is always consumed, as in `_handle_long_word`). -/

/-- One step of Python `str.split(sep)`: split a character list at every
occurrence of `sep` (empty runs are kept; callers filter them out). -/
def splitOnChar (sep : Char) : List Char → List (List Char)
  | [] => [[]]
  | c :: rest =>
    match splitOnChar sep rest with
    | [] => [[c]]
    | l :: ls => if c = sep then [] :: l :: ls else (c :: l) :: ls

/-- Python `str.strip()`: drop whitespace from both ends. -/
def trimChars (s : List Char) : List Char :=
  ((s.dropWhile Char.isWhitespace).reverse.dropWhile Char.isWhitespace).reverse

/-- Greedy line packing over the word list, carrying the line under
construction.  `cur = []` means no line has been started. -/
def wrapAux (W : Nat) : List (List Char) → List Char → List (List Char)
  | [], cur => if cur = [] then [] else [cur]
  | w :: ws, cur =>
    if hc : cur = [] then
      if w.length ≤ W then wrapAux W ws w
      else (w.take (max 1 W)) :: wrapAux W ((w.drop (max 1 W)) :: ws) []
    else
      if cur.length + 1 + w.length ≤ W then wrapAux W ws (cur ++ ' ' :: w)
      else if w.length ≤ W then cur :: wrapAux W (w :: ws) []
      else if cur.length + 1 ≤ W then
        (cur ++ ' ' :: w.take (W - (cur.length + 1))) ::
          wrapAux W ((w.drop (W - (cur.length + 1))) :: ws) []
      else cur :: wrapAux W (w :: ws) []
termination_by ws cur =>
  2 * ((ws.map List.length).sum + ws.length) + (if cur = [] then 0 else 1)
decreasing_by
  all_goals
    simp only [List.map_cons, List.sum_cons, List.length_cons, List.length_drop,
      List.length_take]
    split_ifs <;> omega

/-- `TextWrapper(width=W).wrap(text)`: replace whitespace by spaces,
split into words, drop empty words, pack greedily. -/
def wrap (s : List Char) (W : Nat) : List (List Char) :=
  wrapAux W
    ((splitOnChar ' ' (s.map fun c => if c.isWhitespace then ' ' else c)).filter
      (· ≠ [])) []

/-- `TextWrapper(width=W).fill(text)` = newline-join of `wrap`. -/
def fill (s : List Char) (W : Nat) : List Char :=
  List.intercalate ['\n'] (wrap s W)

/-! ## Raster images (`comic_assembler.py`)

A PIL image is modelled as a syntax tree of the operations the assembler
performs on it: opening a file, creating a blank canvas, resizing, the
`ImageDraw` primitives (`ellipse`, `polygon`, `text`) applied to it, and
pasting another image onto it at a position.  Geometry is `Int`
(Python ints; `//` is floor division, `Int.fdiv`). -/

inductive Img where
  | fromFile (path : String) : Img
  | blank (width height : Int) (color : String) : Img
  | resize (img : Img) (width height : Int) : Img
  | ellipse (img : Img) (coords : List Int) (fillColor : String)
      (outline : Option String) (lineWidth : Int) : Img
  | polygon (img : Img) (points : List (Int × Int)) (fillColor outline : String) : Img
  | drawText (img : Img) (x y : Int) (s : String) (fillColor : String) : Img
  | paste (img : Img) (pasted : Img) (x y : Int) : Img
  deriving DecidableEq, Repr

/-- External environment of the assembler: `load p` is the size of the
image file at `p` (`none` when `Image.open`/decode fails), and
`textWidth` is the font metric `draw.textbbox` width for a string. -/
structure FS where
  load : String → Option (Int × Int)
  textWidth : String → Int

/-- `image.size`: blank/resize fix the size, draw operations keep the
size of the image drawn on, paste keeps the target's size; a raw file's
size comes from the environment. -/
def Img.size (fs : FS) : Img → Int × Int
  | .fromFile p => (fs.load p).getD (0, 0)
  | .blank w h _ => (w, h)
  | .resize _ w h => (w, h)
  | .ellipse i _ _ _ _ => i.size fs
  | .polygon i _ _ _ => i.size fs
  | .drawText i _ _ _ _ => i.size fs
  | .paste i _ _ _ => i.size fs

/-- Number of operations applied on top of the base image. -/
def Img.opCount : Img → Nat
  | .fromFile _ => 0
  | .blank _ _ _ => 0
  | .resize i _ _ => i.opCount + 1
  | .ellipse i _ _ _ _ => i.opCount + 1
  | .polygon i _ _ _ => i.opCount + 1
  | .drawText i _ _ _ _ => i.opCount + 1
  | .paste i p _ _ => i.opCount + p.opCount + 1

/-- The `for line in lines` loop of `add_text_to_panel` (lines 83-90):
draw each line centered in the bubble, advancing `text_y` by the line
height. -/
def drawTextLines (fs : FS) (bubbleX bubbleWidth lineHeight : Int) :
    List (List Char) → Img × Int → Img × Int
  | [], acc => acc
  | line :: rest, acc =>
    let textW := fs.textWidth (String.mk line)
    let textX := bubbleX + Int.fdiv (bubbleWidth - textW) 2
    drawTextLines fs bubbleX bubbleWidth lineHeight rest
      (Img.drawText acc.1 textX acc.2 (String.mk line) "black", acc.2 + lineHeight)

/-- `ComicAssembler.add_text_to_panel` (`comic_assembler.py:12-92`): wrap
the text to 35 columns, size a speech bubble from the line count, draw a
shadow ellipse, the bubble ellipse, the tail polygon, then the text
lines.  The image (with its drawing operations) is returned. -/
def addTextToPanel (fs : FS) (image : Img) (text : String) (position : String) : Img :=
  let wh := image.size fs
  let lines := splitOnChar '\n' (fill text.data 35)
  let lineHeight : Int := 35
  let totalTextHeight : Int := lines.length * lineHeight
  let bubblePadding : Int := 25
  let bubbleWidth : Int := wh.1 - 80
  let bubbleHeight : Int := totalTextHeight + 2 * bubblePadding
  let bxy : Int × Int :=
    if position = "bottom" then (40, wh.2 - bubbleHeight - 40) else (40, 40)
  let coords := [bxy.1, bxy.2, bxy.1 + bubbleWidth, bxy.2 + bubbleHeight]
  let img1 := Img.ellipse image (coords.map (· + 5)) "#CCCCCC" none 1
  let img2 := Img.ellipse img1 coords "white" (some "black") 4
  let tailPoints :=
    if position = "bottom" then
      [(bxy.1 + 60, bxy.2 + bubbleHeight), (bxy.1 + 40, bxy.2 + bubbleHeight + 20),
       (bxy.1 + 80, bxy.2 + bubbleHeight)]
    else
      [(bxy.1 + 60, bxy.2), (bxy.1 + 40, bxy.2 - 20), (bxy.1 + 80, bxy.2)]
  let img3 := Img.polygon img2 tailPoints "white" "black"
  (drawTextLines fs bxy.1 bubbleWidth lineHeight lines
    (img3, bxy.2 + bubblePadding)).1

/-- `ComicAssembler.create_panel_with_border` (`comic_assembler.py:94-116`):
open and resize the image to 512x512 (`none` if loading fails), add the
dialogue bubble when the dialogue is non-empty, and paste onto a black
522x522 canvas (border width 5 on all sides). -/
def createPanelWithBorder (fs : FS) (imagePath : String) (dialogue : String) :
    Option Img :=
  match fs.load imagePath with
  | none => none
  | some _ =>
    let img := Img.resize (Img.fromFile imagePath) 512 512
    let img := if dialogue ≠ "" then addTextToPanel fs img dialogue "bottom" else img
    some (Img.paste (Img.blank (512 + 2 * 5) (512 + 2 * 5) "black") img 5 5)

/-- One record of the `panel_images` list built by
`generate_all_panels`; `dialogue`/`scene` are dictionary keys read back
with `.get(key, '')` in the assembler, hence `Option`. -/
structure PanelImage where
  panel_number : Int
  image_path : String
  dialogue : Option String
  scene : Option String
  deriving DecidableEq, Repr

/-- Stable ascending insertion used by `sortPanels`. -/
def insertPanel (p : PanelImage) : List PanelImage → List PanelImage
  | [] => [p]
  | q :: qs =>
    if p.panel_number ≤ q.panel_number then p :: q :: qs else q :: insertPanel p qs

/-- `sorted(panel_images, key=lambda x: x['panel_number'])`
(`comic_assembler.py:126`): stable sort ascending by panel number. -/
def sortPanels (panels : List PanelImage) : List PanelImage :=
  panels.foldr insertPanel []

/-- Grid-shape decision of `assemble_comic` (`comic_assembler.py:129-135`). -/
def gridShape (layout : String) (n : Nat) : Nat × Nat :=
  if layout = "2x2" ∨ n = 4 then (2, 2)
  else if layout = "1x4" ∨ n ≤ 4 then (1, n)
  else (2, (n + 1) / 2)

/-- `cols * panel_full_width + (cols + 1) * padding`
(`comic_assembler.py:156`) with panel size 512, border 5, padding 10. -/
def comicWidth (cols : Nat) : Int :=
  (cols : Int) * (512 + 2 * 5) + ((cols : Int) + 1) * 10

/-- `rows * panel_full_height + (rows + 1) * padding + title_height`
(`comic_assembler.py:157`). -/
def comicHeight (rows : Nat) (titleHeight : Int) : Int :=
  (rows : Int) * (512 + 2 * 5) + ((rows : Int) + 1) * 10 + titleHeight

/-- The bordered-panel list built by the loop at
`comic_assembler.py:138-145`: failing panels (`create_panel_with_border`
returned `None`) are skipped. -/
def borderedPanels (fs : FS) (panels : List PanelImage) : List Img :=
  (sortPanels panels).filterMap fun p =>
    createPanelWithBorder fs p.image_path (p.dialogue.getD "")

/-- `ComicAssembler.assemble_comic` (`comic_assembler.py:118-194`).
Returns `none` when there is no input or no panel composed successfully
(no file is written); otherwise `some (outputPath, img)` models the
composed image `img` written to `outputPath` (`comic.save` assumed to
succeed). -/
def assembleComic (fs : FS) (panels : List PanelImage)
    (outputPath title layout : String) : Option (String × Img) :=
  if panels.isEmpty then none
  else
    let sortedPs := sortPanels panels
    let shape := gridShape layout sortedPs.length
    let bps := borderedPanels fs panels
    if bps.isEmpty then none
    else
      let titleHeight : Int := if title = "" then 0 else 80
      let w := comicWidth shape.1
      let h := comicHeight shape.2 titleHeight
      let comic := Img.blank w h "white"
      let comic :=
        if title = "" then comic
        else Img.drawText comic (Int.fdiv (w - fs.textWidth title) 2) 20 title "black"
      let comic := (bps.enum).foldl
        (fun c ip =>
          let row := ip.1 / shape.1
          let col := ip.1 % shape.1
          Img.paste c ip.2
            ((col : Int) * (512 + 2 * 5) + ((col : Int) + 1) * 10)
            ((row : Int) * (512 + 2 * 5) + ((row : Int) + 1) * 10 + titleHeight))
        comic
      some (outputPath, comic)

/-! ## Script normalization (`src/summarizer.py`) -/

/-- Markdown-fence cleanup applied to the model response before
`json.loads` (`summarizer.py:60-67` and `summarizer.py:124-133`): strip
whitespace, drop a leading ```json or ``` fence, drop a trailing ```
fence, strip again.  The Python string is modelled as `List Char`. -/
def cleanModelResponse (content : List Char) : List Char :=
  let c := trimChars content
  let c := if ("```json".data).isPrefixOf c then c.drop 7 else c
  let c := if ("```".data).isPrefixOf c then c.drop 3 else c
  let c := if ("```".data).isSuffixOf c then c.take (c.length - 3) else c
  trimChars c

/-- One panel dictionary of the parsed script; every field may be
missing. -/
structure RawPanel where
  panel_number : Option Int
  characters : Option (List String)
  dialogue : Option String
  scene : Option String
  deriving DecidableEq, Repr

/-- The parsed script dictionary: `title` and the `panels` list may each
be missing. -/
structure Script where
  title : Option String
  panels : Option (List RawPanel)
  deriving DecidableEq, Repr

/-- Field repair for the panel at (0-based) position `i`
(`summarizer.py:74-81`): fill `panel_number` with `i + 1`, `characters`
with `[]`, `dialogue` with `''`, `scene` with `'Scene description'`;
present fields are untouched. -/
def normalizePanel (i : Nat) (p : RawPanel) : RawPanel :=
  { panel_number := some (p.panel_number.getD ((i : Int) + 1)),
    characters := some (p.characters.getD []),
    dialogue := some (p.dialogue.getD ""),
    scene := some (p.scene.getD "Scene description") }

/-- The `for i, panel in enumerate(script.get('panels', []))` loop
(`summarizer.py:73`), carrying the running index. -/
def normalizePanelsAux (i : Nat) : List RawPanel → List RawPanel
  | [] => []
  | p :: ps => normalizePanel i p :: normalizePanelsAux (i + 1) ps

/-- Normalization of the whole panel list, starting at index 0. -/
def normalizePanels (ps : List RawPanel) : List RawPanel :=
  normalizePanelsAux 0 ps

/-- The field-repair step of `create_comic_script` on the parsed script:
the loop mutates the panel dictionaries in place, so a script without a
`panels` key is returned unchanged. -/
def normalizeScript (s : Script) : Script :=
  { s with panels := s.panels.map normalizePanels }

/-! ## Panel image generation (`src/image_generator.py`) -/

/-- Return value of `ComicImageGenerator.generate_panel_image`
(`image_generator.py:47-92`): every control path (Flux success, Stable
Diffusion success, or the placeholder fallback) returns
`filepath = os.path.join(output_dir, "panel_" + str(panel_number) + ".png")`. -/
def generatePanelImage (panelNumber : Int) (outputDir : String) : String :=
  outputDir ++ "/panel_" ++ toString panelNumber ++ ".png"

/-- The `for i, panel in enumerate(panels)` loop of `generate_all_panels`
(`image_generator.py:163-183`), carrying the running index: one record is
appended per panel (`filepath` is always a non-empty string, so the
`if filepath:` guard always passes). -/
def generateAllPanelsAux (outputDir : String) (i : Nat) :
    List RawPanel → List PanelImage
  | [] => []
  | panel :: rest =>
    let panelNumber := panel.panel_number.getD ((i : Int) + 1)
    { panel_number := panelNumber,
      image_path := generatePanelImage panelNumber outputDir,
      dialogue := some (panel.dialogue.getD ""),
      scene := some (panel.scene.getD "") } ::
      generateAllPanelsAux outputDir (i + 1) rest

/-- `ComicImageGenerator.generate_all_panels` (`image_generator.py:154-186`). -/
def generateAllPanels (script : Script) (comicId : String) : List PanelImage :=
  generateAllPanelsAux ("static/comics/" ++ comicId) 0 (script.panels.getD [])

/-! ## Orchestration (`src/app.py`, `generate_comic`) -/

/-- Article dictionary returned by `NewsFetcher.fetch_article_content`
(`news_fetcher.py:40-56`): on success the `text` key is always present
(possibly empty). -/
structure FetchedArticle where
  title : String
  text : String
  url : String
  deriving Repr

/-- The relevant fields of the `POST /api/generate-comic` JSON body,
each read with `data.get(key, default)`. -/
structure GenRequest where
  url : String
  num_panels : Nat
  title : String
  description : String
  deriving Repr

/-- External collaborators of the pipeline, as injectable functions:
the news fetcher, the summarizer calls, and the assembler environment.
`comicId` stands for the generated `uuid.uuid4()` string. -/
structure Env where
  fs : FS
  fetchArticleContent : String → Option FetchedArticle
  createComicScript : String → Nat → Option Script
  generateCharacterDescriptions : Script → List (String × String)
  comicId : String

/-- Trace of the external calls the handler makes, in order. -/
inductive Call where
  | fetchArticle (url : String)
  | createScript (text : String) (numPanels : Nat)
  | describeCharacters
  | renderPanels
  | assemble (outputPath : String)
  deriving DecidableEq, Repr

/-- Outcome of the handler: an HTTP error response
`(status, message)` or the success payload `(comic_url, title, script)`. -/
inductive GenResult where
  | httpError (status : Nat) (message : String)
  | httpOk (comicUrl : String) (title : String) (script : Script)
  deriving DecidableEq, Repr

/-- Steps 2-5 of `generate_comic` (`app.py:169-212`), entered once an
article text is available. -/
def continuePipeline (env : Env) (req : GenRequest) (articleText : String)
    (trace : List Call) : GenResult × List Call :=
  let trace := trace ++ [Call.createScript articleText req.num_panels]
  match env.createComicScript articleText req.num_panels with
  | none => (.httpError 500 "Could not create comic script", trace)
  | some script =>
    let trace := trace ++ [Call.describeCharacters]
    let _ := env.generateCharacterDescriptions script
    let trace := trace ++ [Call.renderPanels]
    let panelImages := generateAllPanels script env.comicId
    if panelImages.isEmpty then
      (.httpError 500 "Could not generate panel images", trace)
    else
      let outPath := "static/comics/" ++ env.comicId ++ "/final_comic.png"
      let trace := trace ++ [Call.assemble outPath]
      match assembleComic env.fs panelImages outPath (script.title.getD "News Comic") "2x2" with
      | none => (.httpError 500 "Could not assemble comic", trace)
      | some _ =>
        (.httpOk ("/comics/" ++ env.comicId ++ "/final_comic.png")
          (script.title.getD "News Comic") script, trace)

/-- `generate_comic` (`app.py:140-212`): reject a missing URL, fetch the
article, fall back to `title + ". " + description` when the fetch fails
or yields empty text, reject when both fallbacks are empty, then run the
rest of the pipeline. -/
def generateComic (env : Env) (req : GenRequest) : GenResult × List Call :=
  if req.url = "" then (.httpError 400 "Article URL is required", [])
  else
    let trace := [Call.fetchArticle req.url]
    let articleOk : Option FetchedArticle :=
      match env.fetchArticleContent req.url with
      | some a => if a.text = "" then none else some a
      | none => none
    match articleOk with
    | some a => continuePipeline env req a.text trace
    | none =>
      if req.title = "" ∧ req.description = "" then
        (.httpError 400 "Could not fetch article content", trace)
      else
        continuePipeline env req (req.title ++ ". " ++ req.description) trace

/-! ## Concrete sample inputs used by witnesses -/

/-- Environment in which no image file can be loaded. -/
def fsEmpty : FS := ⟨fun _ => none, fun _ => 0⟩

/-- Environment in which every image file loads as 100x100 and all text
has width 0. -/
def fsAll : FS := ⟨fun _ => some (100, 100), fun _ => 0⟩

/-- A sample rendered-panel record with empty dialogue. -/
def panelA : PanelImage := ⟨1, "a.png", some "", none⟩

/-- A second sample rendered-panel record. -/
def panelB : PanelImage := ⟨2, "b.png", some "", none⟩

/-- A raw panel with every field missing. -/
def rawEmpty : RawPanel := ⟨none, none, none, none⟩

/-- A raw panel with every field present. -/
def rawFull : RawPanel := ⟨some 7, some ["Reporter"], some "Breaking news!", some "Newsroom"⟩

/-- A sample parsed script: first panel incomplete, second complete. -/
def scriptW : Script := ⟨some "Headline", some [rawEmpty, rawFull]⟩

/-- A sample script that is already fully normalized. -/
def scriptNorm : Script :=
  ⟨some "Headline",
   some [⟨some 1, some [], some "", some "s1"⟩, ⟨some 2, some ["x"], some "d", some "s2"⟩]⟩

/-- Environment whose article fetch always fails. -/
def envW : Env := ⟨fsEmpty, fun _ => none, fun _ _ => none, fun _ => [], "cid"⟩

/-- A generation request with no fallback title/description. -/
def reqW : GenRequest := ⟨"http://example.com/a", 4, "", ""⟩

/-- A generation request carrying a fallback title and description. -/
def reqW2 : GenRequest := ⟨"http://example.com/a", 4, "Tsunami warning", "Waves hit the coast"⟩

/-- The comic assembled from the single panel `panelA` in `fsAll`. -/
def imgW4 : Img :=
  Img.paste (Img.blank 1074 1074 "white")
    (Img.paste (Img.blank 522 522 "black")
      (Img.resize (Img.fromFile "a.png") 512 512) 5 5) 10 10

/-! ## Claim C1 -/

/-- C1 counterexample: with the default arguments
(`layout='2x2'`), the condition `layout == '2x2' or len(panel_images) == 4`
is always true, so five panels get a 2x2 grid; the claimed priority order
would give 2x3, and `cols * rows >= N` fails at `N = 5`. -/
theorem C1_grid_default_counterexample :
    gridShape "2x2" 5 = (2, 2) ∧
    ¬ (5 ≤ (gridShape "2x2" 5).1 * (gridShape "2x2" 5).2) := by
  decide

/-- C1 (amended): with the default `layout='2x2'` the grid is always
2 columns by 2 rows whatever the panel count, so `cols*rows ≥ N` holds
exactly for `N ≤ 4`; the claimed priority order (4 panels → 2x2,
N ≤ 4 → 1xN, otherwise 2xceil(N/2), with `cols*rows ≥ N` throughout)
holds when `layout` is neither `'2x2'` nor `'1x4'`. -/
theorem C1_grid_shape_amended :
    (∀ n : Nat, gridShape "2x2" n = (2, 2)) ∧
    (∀ n : Nat, n ≤ 4 → n ≤ (gridShape "2x2" n).1 * (gridShape "2x2" n).2) ∧
    (∀ (layout : String) (n : Nat), layout ≠ "2x2" → layout ≠ "1x4" →
      (n = 4 → gridShape layout n = (2, 2)) ∧
      (n ≠ 4 → n ≤ 4 → gridShape layout n = (1, n)) ∧
      (4 < n → gridShape layout n = (2, (n + 1) / 2)) ∧
      n ≤ (gridShape layout n).1 * (gridShape layout n).2) := by
  refine ⟨fun n => by simp [gridShape], fun n h => by simp [gridShape]; omega, ?_⟩
  intro layout n h1 h2
  refine ⟨fun h4 => by simp [gridShape, h4], fun hne hle => ?_, fun hgt => ?_, ?_⟩
  · simp only [gridShape]
    rw [if_neg (by simp [h1, hne]), if_pos (Or.inr hle)]
  · simp only [gridShape]
    rw [if_neg (by simp [h1]; omega), if_neg (by simp [h2]; omega)]
  · simp only [gridShape]
    split_ifs with hA hB
    · rcases hA with hA | hA
      · exact absurd hA h1
      · subst hA; omega
    · rcases hB with hB | hB
      · exact absurd hB h2
      · simp
    · simp; omega

/-- C1 witness: three panels with the default layout still get a 2x2
grid, and a non-default layout string with five panels gets the
2xceil(5/2) grid of the priority order. -/
theorem C1_grid_shape_witness :
    gridShape "2x2" 3 = (2, 2) ∧ gridShape "grid" 5 = (2, 3) :=
  ⟨C1_grid_shape_amended.1 3,
   (C1_grid_shape_amended.2.2 "grid" 5 (by decide) (by decide)).2.2.1 (by decide)⟩

/-! ## Claim C2 -/

/-- Each drawn line adds exactly one operation to the image. -/
theorem drawTextLines_opCount (fs : FS) (bx bw lh : Int) (ls : List (List Char))
    (img : Img) (y : Int) :
    (drawTextLines fs bx bw lh ls (img, y)).1.opCount = img.opCount + ls.length := by
  induction ls generalizing img y with
  | nil => rfl
  | cons l rest ih =>
    rw [drawTextLines, ih]
    simp [Img.opCount]
    omega

/-- `add_text_to_panel` always applies the two ellipses, the tail
polygon, and one text operation per wrapped line — also when `text` is
empty (the empty string wraps to a single empty line). -/
theorem addTextToPanel_opCount (fs : FS) (img : Img) (text : String) (pos : String) :
    (addTextToPanel fs img text pos).opCount =
      img.opCount + 3 + (splitOnChar '\n' (fill text.data 35)).length := by
  unfold addTextToPanel
  rw [drawTextLines_opCount]
  simp [Img.opCount]

/-- `add_text_to_panel` never returns its input unchanged: it draws the
bubble unconditionally. -/
theorem addTextToPanel_ne (fs : FS) (img : Img) (text : String) (pos : String) :
    addTextToPanel fs img text pos ≠ img := by
  intro h
  have h2 := congrArg Img.opCount h
  rw [addTextToPanel_opCount] at h2
  omega

/-- C2 counterexample: calling `add_text_to_panel` with the empty text
string on a blank 512x512 image does draw (the function has no empty-text
guard; it wraps `''` to one empty line and draws the bubble around it),
so the output is not identical to the input. -/
theorem C2_addText_counterexample :
    addTextToPanel fsEmpty (Img.blank 512 512 "white") "" "bottom" ≠
      Img.blank 512 512 "white" :=
  addTextToPanel_ne fsEmpty (Img.blank 512 512 "white") "" "bottom"

/-- C2 (amended): the empty-dialogue no-op guard lives in the caller
`create_panel_with_border` (line 102, `if dialogue:`): with empty
dialogue, `add_text_to_panel` is never invoked and the bordered panel
contains exactly the resized source image with no drawing operation
applied to it. -/
theorem C2_empty_dialogue_no_drawing (fs : FS) (path : String) (sz : Int × Int)
    (h : fs.load path = some sz) :
    createPanelWithBorder fs path "" =
      some (Img.paste (Img.blank (512 + 2 * 5) (512 + 2 * 5) "black")
        (Img.resize (Img.fromFile path) 512 512) 5 5) := by
  simp [createPanelWithBorder, h]

/-- C2 witness: a loadable image with empty dialogue composes to the
bare bordered panel. -/
theorem C2_empty_dialogue_witness :
    fsAll.load "a.png" = some (100, 100) ∧
    createPanelWithBorder fsAll "a.png" "" =
      some (Img.paste (Img.blank (512 + 2 * 5) (512 + 2 * 5) "black")
        (Img.resize (Img.fromFile "a.png") 512 512) 5 5) :=
  ⟨rfl, C2_empty_dialogue_no_drawing fsAll "a.png" (100, 100) rfl⟩

/-! ## Claim C3 -/

/-- Invariant of the greedy packer: if the line under construction fits
in the width, every emitted line fits in the width. -/
theorem wrapAux_line_length_le (W : Nat) (hW : 0 < W) (ws : List (List Char))
    (cur : List Char) :
    cur.length ≤ W → ∀ l ∈ wrapAux W ws cur, l.length ≤ W := by
  induction ws, cur using wrapAux.induct W with
  | case1 =>
    intro _ l hl
    rw [wrapAux] at hl
    simp at hl
  | case2 cur hc =>
    intro hcur l hl
    rw [wrapAux, if_neg hc] at hl
    simp at hl
    subst hl
    exact hcur
  | case3 w ws hfit ih =>
    intro _ l hl
    rw [wrapAux] at hl
    rw [dif_pos rfl, if_pos hfit] at hl
    exact ih hfit l hl
  | case4 w ws hfit ih =>
    intro _ l hl
    rw [wrapAux] at hl
    rw [dif_pos rfl, if_neg hfit] at hl
    rcases List.mem_cons.mp hl with h | h
    · subst h
      rw [List.length_take]
      have h2 : (1 : Nat) ⊔ W = W := sup_eq_right.mpr hW
      rw [h2]
      exact Nat.min_le_left W _
    · exact ih (by simp) l h
  | case5 w ws cur hc hfit ih =>
    intro hcur l hl
    rw [wrapAux] at hl
    rw [dif_neg hc, if_pos hfit] at hl
    refine ih ?_ l hl
    simp only [List.length_append, List.length_cons]
    omega
  | case6 w ws cur hc hfit hsmall ih =>
    intro hcur l hl
    rw [wrapAux] at hl
    rw [dif_neg hc, if_neg hfit, if_pos hsmall] at hl
    rcases List.mem_cons.mp hl with h | h
    · subst h; exact hcur
    · exact ih (by simp) l h
  | case7 w ws cur hc hfit hsmall hroom ih =>
    intro hcur l hl
    rw [wrapAux] at hl
    rw [dif_neg hc, if_neg hfit, if_neg hsmall, if_pos hroom] at hl
    rcases List.mem_cons.mp hl with h | h
    · subst h
      simp only [List.length_append, List.length_cons, List.length_take]
      have hmin := Nat.min_le_left (W - (cur.length + 1)) w.length
      omega
    · exact ih (by simp) l h
  | case8 w ws cur hc hfit hsmall hroom ih =>
    intro hcur l hl
    rw [wrapAux] at hl
    rw [dif_neg hc, if_neg hfit, if_neg hsmall, if_neg hroom] at hl
    rcases List.mem_cons.mp hl with h | h
    · subst h; exact hcur
    · exact ih (by simp) l h

/-- C3: wrapping the empty string yields no lines at all, and for every
input, every line produced by the greedy wrapper has at most `W`
characters. -/
theorem C3_textwrap (s : List Char) (W : Nat) (hW : 0 < W) :
    wrap [] W = [] ∧ ∀ l ∈ wrap s W, l.length ≤ W := by
  constructor
  · show wrapAux W [] [] = []
    rw [wrapAux]
    simp
  · exact wrapAux_line_length_le W hW _ [] (by simp)

/-- C3 witness: instantiated at a concrete text and the width 35 used in
`comic_assembler.py`. -/
theorem C3_textwrap_witness :
    wrap [] 35 = [] ∧ ∀ l ∈ wrap ("breaking news from the coast".data) 35, l.length ≤ 35 :=
  C3_textwrap ("breaking news from the coast".data) 35 (by decide)

/-! ## Claims C5 and C6: helper lemmas -/

/-- The field-repair loop keeps the number of panels. -/
theorem normalizePanelsAux_length (i : Nat) (ps : List RawPanel) :
    (normalizePanelsAux i ps).length = ps.length := by
  induction ps generalizing i with
  | nil => rfl
  | cons p ps ih => simp [normalizePanelsAux, ih]

/-- The panel at position `j` of the repaired list is the repair of the
panel at position `j` of the input, with running index `i + j`. -/
theorem normalizePanelsAux_get (i : Nat) (ps : List RawPanel) (j : Nat)
    (h : j < ps.length) (h2 : j < (normalizePanelsAux i ps).length) :
    (normalizePanelsAux i ps).get ⟨j, h2⟩ = normalizePanel (i + j) (ps.get ⟨j, h⟩) := by
  induction ps generalizing i j with
  | nil => simp at h
  | cons p ps ih =>
    cases j with
    | zero => rfl
    | succ j =>
      have hj : j < ps.length := by simpa using h
      have hj2 : j < (normalizePanelsAux (i + 1) ps).length := by
        rw [normalizePanelsAux_length]; exact hj
      have := ih (i + 1) j hj hj2
      simp only [normalizePanelsAux, List.get_cons_succ]
      rw [this]
      congr 1
      omega

/-- A panel whose four fields are all present is left unchanged by the
repair. -/
theorem normalizePanel_complete (i : Nat) (p : RawPanel)
    (h : p.panel_number.isSome ∧ p.characters.isSome ∧ p.dialogue.isSome ∧
      p.scene.isSome) :
    normalizePanel i p = p := by
  obtain ⟨pn, pc, pd, psc⟩ := p
  obtain ⟨h1, h2, h3, h4⟩ := h
  rcases Option.isSome_iff_exists.mp h1 with ⟨n, rfl⟩
  rcases Option.isSome_iff_exists.mp h2 with ⟨c, rfl⟩
  rcases Option.isSome_iff_exists.mp h3 with ⟨d, rfl⟩
  rcases Option.isSome_iff_exists.mp h4 with ⟨sc, rfl⟩
  rfl

/-- The repair loop is the identity on lists of complete panels,
whatever the running index. -/
theorem normalizePanelsAux_complete (ps : List RawPanel) (i : Nat)
    (h : ∀ p ∈ ps, p.panel_number.isSome ∧ p.characters.isSome ∧
      p.dialogue.isSome ∧ p.scene.isSome) :
    normalizePanelsAux i ps = ps := by
  induction ps generalizing i with
  | nil => rfl
  | cons p ps ih =>
    rw [normalizePanelsAux, ih (i + 1) (fun q hq => h q (by simp [hq])),
      normalizePanel_complete i p (h p (by simp))]

/-! ## Claim C5 -/

/-- C5: the field-repair loop of `create_comic_script` preserves the
panel count and relative order, and at every position `i` it fills a
missing `panel_number` with the 1-based position `i+1`, missing
`characters` with the empty list, missing `dialogue` with the empty
string, and missing `scene` with the placeholder, while returning every
already-present field unchanged. -/
theorem C5_normalizer_fields (ps : List RawPanel) (i : Nat) (h : i < ps.length)
    (h2 : i < (normalizePanels ps).length) :
    (normalizePanels ps).length = ps.length ∧
    ((normalizePanels ps).get ⟨i, h2⟩).panel_number =
      some ((ps.get ⟨i, h⟩).panel_number.getD ((i : Int) + 1)) ∧
    ((normalizePanels ps).get ⟨i, h2⟩).characters =
      some ((ps.get ⟨i, h⟩).characters.getD []) ∧
    ((normalizePanels ps).get ⟨i, h2⟩).dialogue =
      some ((ps.get ⟨i, h⟩).dialogue.getD "") ∧
    ((normalizePanels ps).get ⟨i, h2⟩).scene =
      some ((ps.get ⟨i, h⟩).scene.getD "Scene description") ∧
    (∀ n, (ps.get ⟨i, h⟩).panel_number = some n →
      ((normalizePanels ps).get ⟨i, h2⟩).panel_number = some n) ∧
    (∀ c, (ps.get ⟨i, h⟩).characters = some c →
      ((normalizePanels ps).get ⟨i, h2⟩).characters = some c) ∧
    (∀ d, (ps.get ⟨i, h⟩).dialogue = some d →
      ((normalizePanels ps).get ⟨i, h2⟩).dialogue = some d) ∧
    (∀ sc, (ps.get ⟨i, h⟩).scene = some sc →
      ((normalizePanels ps).get ⟨i, h2⟩).scene = some sc) := by
  have hg := normalizePanelsAux_get 0 ps i h h2
  simp only [normalizePanels] at h2 ⊢
  rw [hg]
  simp only [normalizePanel, Nat.zero_add]
  refine ⟨normalizePanelsAux_length 0 ps, trivial, trivial, trivial, trivial, ?_, ?_, ?_, ?_⟩
  · intro n hn; rw [hn]; rfl
  · intro c hc; rw [hc]; rfl
  · intro d hd; rw [hd]; rfl
  · intro sc hsc; rw [hsc]; rfl

/-- C5 witness: in a two-panel list whose first panel has no fields, the
first repaired panel gets `panel_number = 1`. -/
theorem C5_normalizer_witness :
    ((normalizePanels [rawEmpty, rawFull]).get ⟨0, by decide⟩).panel_number = some 1 := by
  have h := (C5_normalizer_fields [rawEmpty, rawFull] 0 (by decide) (by decide)).2.1
  simpa [rawEmpty] using h

/-! ## Claim C6 -/

/-- C6: normalization is the identity on a script all of whose panels
already carry `panel_number`, `characters`, `dialogue` and `scene`. -/
theorem C6_normalizer_idempotent (s : Script)
    (h : ∀ p ∈ s.panels.getD [], p.panel_number.isSome ∧ p.characters.isSome ∧
      p.dialogue.isSome ∧ p.scene.isSome) :
    normalizeScript s = s := by
  obtain ⟨t, ps⟩ := s
  cases ps with
  | none => rfl
  | some l =>
    have hl : normalizePanels l = l :=
      normalizePanelsAux_complete l 0 (by simpa using h)
    simp [normalizeScript, hl]

/-- C6 witness: a concrete fully-populated script is unchanged. -/
theorem C6_idempotent_witness : normalizeScript scriptNorm = scriptNorm :=
  C6_normalizer_idempotent scriptNorm (by decide)

/-! ## Claim C7: helper lemmas -/

/-- Inserting into a sorted prefix is a permutation of consing. -/
theorem insertPanel_perm (p : PanelImage) (l : List PanelImage) :
    List.Perm (insertPanel p l) (p :: l) := by
  induction l with
  | nil => exact List.Perm.refl _
  | cons q qs ih =>
    rw [insertPanel]
    split_ifs with hle
    · exact List.Perm.refl _
    · exact (List.Perm.cons q ih).trans (List.Perm.swap p q qs)

/-- `sorted(...)` returns a permutation of its input. -/
theorem sortPanels_perm (l : List PanelImage) : List.Perm (sortPanels l) l := by
  induction l with
  | nil => exact List.Perm.refl _
  | cons p l ih =>
    have hstep : sortPanels (p :: l) = insertPanel p (sortPanels l) := rfl
    rw [hstep]
    exact (insertPanel_perm p (sortPanels l)).trans (List.Perm.cons p ih)

/-- A composed panel exists exactly when the image file loads: the
bordered list keeps one entry per loadable panel. -/
theorem length_filterMap_border (fs : FS) (l : List PanelImage) :
    (l.filterMap (fun p =>
      createPanelWithBorder fs p.image_path (p.dialogue.getD ""))).length =
      (l.filter (fun p => (fs.load p.image_path).isSome)).length := by
  induction l with
  | nil => rfl
  | cons p l ih =>
    rw [List.filterMap_cons, List.filter_cons]
    cases hl : fs.load p.image_path with
    | none =>
      have hcp : createPanelWithBorder fs p.image_path (p.dialogue.getD "") = none := by
        simp [createPanelWithBorder, hl]
      rw [hcp]
      simpa using ih
    | some sz =>
      have hcp : ∃ b, createPanelWithBorder fs p.image_path (p.dialogue.getD "") = some b := by
        simp [createPanelWithBorder, hl]
      obtain ⟨b, hb⟩ := hcp
      rw [hb]
      simp [ih]

/-! ## Claim C7 -/

/-- C7: `assemble_comic` returns `none` (writing nothing) when the input
list is empty or no panel image loads; when at least one panel loads it
returns `some` with the requested output path; and the bordered list
keeps exactly one panel per loadable input panel (failing panels are
skipped, the rest are assembled). -/
theorem C7_assemble_error_handling (fs : FS) (panels : List PanelImage)
    (outputPath title layout : String) :
    (panels = [] → assembleComic fs panels outputPath title layout = none) ∧
    ((∀ p ∈ panels, fs.load p.image_path = none) →
      assembleComic fs panels outputPath title layout = none) ∧
    ((∃ p ∈ panels, (fs.load p.image_path).isSome) →
      ∃ img, assembleComic fs panels outputPath title layout = some (outputPath, img)) ∧
    (borderedPanels fs panels).length =
      (panels.filter (fun p => (fs.load p.image_path).isSome)).length := by
  refine ⟨?_, ?_, ?_, ?_⟩
  · intro h
    subst h
    rfl
  · intro hall
    have hb : borderedPanels fs panels = [] := by
      rw [borderedPanels, List.filterMap_eq_nil_iff]
      intro p hp
      have hmem : p ∈ panels := (sortPanels_perm panels).mem_iff.mp hp
      simp [createPanelWithBorder, hall p hmem]
    by_cases he : panels.isEmpty
    · simp [assembleComic, he]
    · simp [assembleComic, he, hb]
  · rintro ⟨p, hp, hload⟩
    obtain ⟨sz, hsz⟩ := Option.isSome_iff_exists.mp hload
    have hps : p ∈ sortPanels panels := (sortPanels_perm panels).mem_iff.mpr hp
    have hbne : borderedPanels fs panels ≠ [] := by
      intro h0
      rw [borderedPanels, List.filterMap_eq_nil_iff] at h0
      have hc := h0 p hps
      simp [createPanelWithBorder, hsz] at hc
    have he : panels.isEmpty = false := by
      cases panels
      · simp at hp
      · rfl
    simp only [assembleComic, he, Bool.false_eq_true, if_false,
      List.isEmpty_iff, hbne, ite_false]
    exact ⟨_, rfl⟩
  · rw [borderedPanels, length_filterMap_border]
    exact ((sortPanels_perm panels).filter _).length_eq

/-- C7 witness: with no loadable file the assembler returns `none`; with
loadable files it returns `some` at the requested path. -/
theorem C7_assemble_witness :
    assembleComic fsEmpty [panelA] "out.png" "" "2x2" = none ∧
    ∃ img, assembleComic fsAll [panelA, panelB] "o.png" "T" "2x2" = some ("o.png", img) :=
  ⟨(C7_assemble_error_handling fsEmpty [panelA] "out.png" "" "2x2").2.1 (by decide),
   (C7_assemble_error_handling fsAll [panelA, panelB] "o.png" "T" "2x2").2.2.1
     ⟨panelA, by decide, by decide⟩⟩

/-! ## Claim C8 -/

/-- Once an article text is available, the very next external call of
the pipeline is `create_comic_script` on that text: it appears in the
trace of every outcome. -/
theorem continuePipeline_calls_createScript (env : Env) (req : GenRequest)
    (articleText : String) (trace : List Call) :
    Call.createScript articleText req.num_panels ∈
      (continuePipeline env req articleText trace).2 := by
  simp only [continuePipeline]
  split
  · simp
  · split
    · simp
    · split
      · simp
      · simp

/-- C8: when the article fetch fails (or fetches empty text) and the
request carries neither a title nor a description, the handler answers
with the 400 error response right after the fetch call — in particular
the script model is never invoked; when a title or description is
present, the script model is invoked on the text
`title ++ ". " ++ description`. -/
theorem C8_article_fallback (env : Env) (req : GenRequest)
    (hurl : req.url ≠ "")
    (hfetch : ∀ a, env.fetchArticleContent req.url = some a → a.text = "") :
    (req.title = "" → req.description = "" →
      generateComic env req =
        (.httpError 400 "Could not fetch article content", [Call.fetchArticle req.url])) ∧
    (¬ (req.title = "" ∧ req.description = "") →
      Call.createScript (req.title ++ ". " ++ req.description) req.num_panels ∈
        (generateComic env req).2) := by
  have harticle : (match env.fetchArticleContent req.url with
      | some a => if a.text = "" then none else some a
      | none => none) = (none : Option FetchedArticle) := by
    cases hf : env.fetchArticleContent req.url with
    | none => rfl
    | some a => simp [hfetch a hf]
  constructor
  · intro ht hd
    simp only [generateComic, if_neg hurl, harticle]
    simp [ht, hd]
  · intro hnot
    simp only [generateComic, if_neg hurl, harticle]
    rw [if_neg hnot]
    exact continuePipeline_calls_createScript env req _ _

/-- C8 witness: with a failing fetch, the bare request gets the 400
error with only the fetch in the trace, and the request with fallback
fields reaches the script model with the concatenated text. -/
theorem C8_article_witness :
    generateComic envW reqW =
      (.httpError 400 "Could not fetch article content",
       [Call.fetchArticle "http://example.com/a"]) ∧
    Call.createScript "Tsunami warning. Waves hit the coast" 4 ∈
      (generateComic envW reqW2).2 :=
  ⟨(C8_article_fallback envW reqW (by decide) (fun a h => nomatch h)).1 rfl rfl,
   (C8_article_fallback envW reqW2 (by decide) (fun a h => nomatch h)).2 (by decide)⟩

/-! ## Claim C9: helper lemmas -/

/-- `strip()` is the identity on a string whose first and last
characters are not whitespace. -/
theorem trimChars_eq_self_of (a b : Char) (ha : a.isWhitespace = false)
    (hb : b.isWhitespace = false) (l : List Char) :
    trimChars (a :: (l ++ [b])) = a :: (l ++ [b]) := by
  unfold trimChars
  have h1 : (a :: (l ++ [b])).dropWhile Char.isWhitespace = a :: (l ++ [b]) := by
    rw [List.dropWhile_cons, ha]
    simp
  rw [h1]
  have h2 : (a :: (l ++ [b])).reverse = b :: (l.reverse ++ [a]) := by simp
  rw [h2]
  have h3 : (b :: (l.reverse ++ [a])).dropWhile Char.isWhitespace =
      b :: (l.reverse ++ [a]) := by
    rw [List.dropWhile_cons, hb]
    simp
  rw [h3, ← h2, List.reverse_reverse]

/-- `strip()` absorbs a leading newline. -/
theorem trimChars_newline_cons (l : List Char) :
    trimChars ('\n' :: l) = trimChars l := by
  unfold trimChars
  rw [List.dropWhile_cons]
  simp

/-- `strip()` absorbs a trailing newline. -/
theorem trimChars_newline_append (l : List Char) :
    trimChars (l ++ ['\n']) = trimChars l := by
  unfold trimChars
  cases h : l.dropWhile Char.isWhitespace with
  | nil =>
    rw [List.dropWhile_append, h]
    simp
  | cons c rest =>
    rw [List.dropWhile_append, h]
    simp only [List.isEmpty_cons, Bool.false_eq_true, if_false, List.reverse_append,
      List.reverse_cons, List.reverse_nil, List.nil_append, List.singleton_append,
      List.dropWhile_cons]
    simp

/-- Processing of the text left after the leading fence was dropped: the
trailing fence is recognized and removed, and the final `strip()` leaves
exactly the trimmed payload. -/
theorem stripTrailingFence (j : List Char) :
    trimChars
      (if ("```".data).isSuffixOf ('\n' :: (j ++ ['\n', '`', '`', '`'])) then
        ('\n' :: (j ++ ['\n', '`', '`', '`'])).take
          (('\n' :: (j ++ ['\n', '`', '`', '`'])).length - 3)
      else '\n' :: (j ++ ['\n', '`', '`', '`'])) = trimChars j := by
  have hsuf : ("```".data).isSuffixOf ('\n' :: (j ++ ['\n', '`', '`', '`'])) = true := by
    rw [List.isSuffixOf]
    have h0 : ("```".data) = ['`', '`', '`'] := rfl
    rw [h0]
    have h1 : ('\n' :: (j ++ ['\n', '`', '`', '`'])).reverse =
        '`' :: '`' :: '`' :: '\n' :: (j.reverse ++ ['\n']) := by simp
    rw [h1]
    simp [List.isPrefixOf]
  rw [if_pos hsuf]
  have hc : '\n' :: (j ++ ['\n', '`', '`', '`']) =
      ('\n' :: (j ++ ['\n'])) ++ ['`', '`', '`'] := by simp
  rw [hc]
  have hlen : ((('\n' :: (j ++ ['\n'])) ++ ['`', '`', '`']).length - 3) =
      ('\n' :: (j ++ ['\n'])).length := by simp
  rw [hlen, List.take_left, trimChars_newline_cons, trimChars_newline_append]

/-! ## Claim C9 -/

/-- C9: a model response that is a JSON payload wrapped in markdown
fences — either ```json or plain ``` on the opening line — is cleaned to
exactly the stripped payload, i.e. the same text a fence-free response
would hand to `json.loads`. -/
theorem C9_markdown_fence_stripping (j : List Char) :
    cleanModelResponse ("```json\n".data ++ (j ++ "\n```".data)) = trimChars j ∧
    cleanModelResponse ("```\n".data ++ (j ++ "\n```".data)) = trimChars j := by
  constructor
  · have hs : "```json\n".data ++ (j ++ "\n```".data) =
        '`' :: (('`' :: '`' :: 'j' :: 's' :: 'o' :: 'n' :: '\n' ::
          (j ++ ['\n', '`', '`'])) ++ ['`']) := by simp
    rw [cleanModelResponse, hs,
      trimChars_eq_self_of '`' '`' rfl rfl _]
    have hpre : ("```json".data).isPrefixOf
        ('`' :: (('`' :: '`' :: 'j' :: 's' :: 'o' :: 'n' :: '\n' ::
          (j ++ ['\n', '`', '`'])) ++ ['`'])) = true := by
      simp [List.isPrefixOf]
    rw [if_pos hpre]
    have hdrop : ('`' :: (('`' :: '`' :: 'j' :: 's' :: 'o' :: 'n' :: '\n' ::
        (j ++ ['\n', '`', '`'])) ++ ['`'])).drop 7 =
        '\n' :: (j ++ ['\n', '`', '`', '`']) := by simp
    rw [hdrop]
    have hpre2 : ("```".data).isPrefixOf ('\n' :: (j ++ ['\n', '`', '`', '`'])) = false := by
      simp [List.isPrefixOf]
    rw [hpre2]
    simp only [Bool.false_eq_true, if_false]
    exact stripTrailingFence j
  · have hs : "```\n".data ++ (j ++ "\n```".data) =
        '`' :: (('`' :: '`' :: '\n' :: (j ++ ['\n', '`', '`'])) ++ ['`']) := by simp
    rw [cleanModelResponse, hs,
      trimChars_eq_self_of '`' '`' rfl rfl _]
    have hpre : ("```json".data).isPrefixOf
        ('`' :: (('`' :: '`' :: '\n' :: (j ++ ['\n', '`', '`'])) ++ ['`'])) = false := by
      simp [List.isPrefixOf]
    rw [hpre]
    simp only [Bool.false_eq_true, if_false]
    have hpre2 : ("```".data).isPrefixOf
        ('`' :: (('`' :: '`' :: '\n' :: (j ++ ['\n', '`', '`'])) ++ ['`'])) = true := by
      simp [List.isPrefixOf]
    rw [if_pos hpre2]
    have hdrop : ('`' :: (('`' :: '`' :: '\n' :: (j ++ ['\n', '`', '`'])) ++ ['`'])).drop 3 =
        '\n' :: (j ++ ['\n', '`', '`', '`']) := by simp
    rw [hdrop]
    exact stripTrailingFence j

/-- C9 witness: a concrete fenced JSON array is cleaned to the bare
array text. -/
theorem C9_markdown_fence_witness :
    cleanModelResponse ("```json\n".data ++ ("[1, 2]".data ++ "\n```".data)) =
      trimChars ("[1, 2]".data) :=
  (C9_markdown_fence_stripping ("[1, 2]".data)).1

/-! ## Claim C10: helper lemmas -/

/-- The panel-generation loop yields one record per input panel. -/
theorem generateAllPanelsAux_length (dir : String) (i : Nat) (ps : List RawPanel) :
    (generateAllPanelsAux dir i ps).length = ps.length := by
  induction ps generalizing i with
  | nil => rfl
  | cons p ps ih => simp [generateAllPanelsAux, ih]

/-- The record at position `j` is built from the panel at position `j`,
with running index `i + j`. -/
theorem generateAllPanelsAux_get (dir : String) (i j : Nat) (ps : List RawPanel)
    (h : j < ps.length) (h2 : j < (generateAllPanelsAux dir i ps).length) :
    (generateAllPanelsAux dir i ps).get ⟨j, h2⟩ =
      { panel_number := (ps.get ⟨j, h⟩).panel_number.getD (((i + j : Nat) : Int) + 1),
        image_path := generatePanelImage
          ((ps.get ⟨j, h⟩).panel_number.getD (((i + j : Nat) : Int) + 1)) dir,
        dialogue := some ((ps.get ⟨j, h⟩).dialogue.getD ""),
        scene := some ((ps.get ⟨j, h⟩).scene.getD "") } := by
  induction ps generalizing i j with
  | nil => simp at h
  | cons p ps ih =>
    cases j with
    | zero => simp [generateAllPanelsAux]
    | succ j =>
      have hj : j < ps.length := by simpa using h
      have hj2 : j < (generateAllPanelsAux dir (i + 1) ps).length := by
        rw [generateAllPanelsAux_length]; exact hj
      have hstep := ih (i + 1) j hj hj2
      simp only [generateAllPanelsAux, List.get_cons_succ]
      rw [hstep]
      have harith : i + 1 + j = i + (j + 1) := by omega
      rw [harith]

/-! ## Claim C10 -/

/-- C10: `generate_all_panels` returns exactly one record per script
panel, in script order; each record's `panel_number` is the panel's
`panel_number` or, when that field is absent, the 1-based position; each
record's `dialogue` and `scene` are the panel's values, defaulting to
the empty string when absent. -/
theorem C10_generate_all_panels (script : Script) (comicId : String) (i : Nat)
    (h : i < (script.panels.getD []).length)
    (h2 : i < (generateAllPanels script comicId).length) :
    (generateAllPanels script comicId).length = (script.panels.getD []).length ∧
    ((generateAllPanels script comicId).get ⟨i, h2⟩).panel_number =
      ((script.panels.getD []).get ⟨i, h⟩).panel_number.getD ((i : Int) + 1) ∧
    ((generateAllPanels script comicId).get ⟨i, h2⟩).dialogue =
      some (((script.panels.getD []).get ⟨i, h⟩).dialogue.getD "") ∧
    ((generateAllPanels script comicId).get ⟨i, h2⟩).scene =
      some (((script.panels.getD []).get ⟨i, h⟩).scene.getD "") := by
  have hg := generateAllPanelsAux_get ("static/comics/" ++ comicId) 0 i
    (script.panels.getD []) h (by simpa [generateAllPanels] using h2)
  simp only [generateAllPanels] at h2 ⊢
  rw [hg]
  simp only [Nat.zero_add]
  exact ⟨generateAllPanelsAux_length _ 0 _, trivial, trivial, trivial⟩

/-- C10 witness: in the sample script the second record keeps the
panel's explicit `panel_number = 7`. -/
theorem C10_generate_witness :
    ((generateAllPanels scriptW "cid").get ⟨1, by decide⟩).panel_number = 7 := by
  have h := (C10_generate_all_panels scriptW "cid" 1 (by decide) (by decide)).2.1
  simpa [scriptW, rawFull] using h

/-! ## Claim C4 -/

/-- Pasting panels one after the other onto a canvas keeps the canvas
size. -/
theorem size_foldl_paste (fs : FS) (fx fy : Nat × Img → Int)
    (l : List (Nat × Img)) (c : Img) :
    (l.foldl (fun c ip => Img.paste c ip.2 (fx ip) (fy ip)) c).size fs = c.size fs := by
  induction l generalizing c with
  | nil => rfl
  | cons a l ih => rw [List.foldl_cons, ih]; rfl

/-- C4: whenever `assemble_comic` produces an output, the canvas
measures `cols*(512+2*5) + (cols+1)*10` wide and
`rows*(512+2*5) + (rows+1)*10` high, plus a fixed 80-pixel title band
exactly when the title is non-empty; a 2-column grid is exactly 1074
wide. -/
theorem C4_canvas_dimensions (fs : FS) (panels : List PanelImage)
    (outputPath title layout p : String) (img : Img) (cols rows : Nat)
    (hg : gridShape layout (sortPanels panels).length = (cols, rows))
    (h : assembleComic fs panels outputPath title layout = some (p, img)) :
    img.size fs =
      ((cols : Int) * (512 + 2 * 5) + ((cols : Int) + 1) * 10,
       (rows : Int) * (512 + 2 * 5) + ((rows : Int) + 1) * 10 +
         (if title = "" then 0 else 80)) ∧
    (cols = 2 → (img.size fs).1 = 1074) := by
  have hsize : img.size fs =
      ((cols : Int) * (512 + 2 * 5) + ((cols : Int) + 1) * 10,
       (rows : Int) * (512 + 2 * 5) + ((rows : Int) + 1) * 10 +
         (if title = "" then 0 else 80)) := by
    simp only [assembleComic] at h
    split_ifs at h with h1 h2 ht
    · simp only [Option.some.injEq, Prod.mk.injEq] at h
      obtain ⟨hp, himg⟩ := h
      subst himg
      rw [size_foldl_paste]
      simp [Img.size, comicWidth, comicHeight, hg, ht]
    · simp only [Option.some.injEq, Prod.mk.injEq] at h
      obtain ⟨hp, himg⟩ := h
      subst himg
      rw [size_foldl_paste]
      simp [Img.size, comicWidth, comicHeight, hg, ht]
  refine ⟨hsize, fun hc => ?_⟩
  rw [hsize, hc]
  norm_num

/-- C4 witness: one loadable panel, empty title, default layout — the
assembled canvas is exactly 1074 x 1074. -/
theorem C4_canvas_witness :
    assembleComic fsAll [panelA] "out.png" "" "2x2" = some ("out.png", imgW4) ∧
    Img.size fsAll imgW4 = (1074, 1074) :=
  ⟨by decide,
   (C4_canvas_dimensions fsAll [panelA] "out.png" "" "2x2" "out.png" imgW4 2 2
      (by decide) (by decide)).1⟩

end NewsComic
